import Mathlib

/-!
Verification of the Mipot 32001353 / LoRa 4 Click driver (`lora4click.py`).

The driver is embedded shallowly: the serial byte stream is a `List Nat`
(one entry per byte), the deadline of the receive state machine is modelled
by stream exhaustion (a read past the end of the stream is the `Timeout`),
and Python exceptions become `Except` error values.
-/

namespace Lora4Click

/-- `MipotSerial._valid_commands`. -/
def validCommands : List Nat :=
  [0x30, 0x31, 0x32, 0x33, 0x34, 0x35, 0x36,
   0x40, 0x42, 0x43, 0x44, 0x45, 0x46, 0x4A, 0x4B,
   0x50, 0x51, 0x52, 0x53, 0x54, 0x55, 0x57, 0x58]

/-- `MipotSerial._valid_indications`. -/
def validIndications : List Nat := [0x41, 0x47, 0x48, 0x49]

/-- Checksum of a byte sum, from `MipotSerial.transmit`:
`((checksum ^ 0xFF) + 1) & 0xFF` (`& 0xFF` is reduction mod 256). -/
def mipotChecksum (s : Nat) : Nat := ((s ^^^ 0xFF) + 1) % 256

/-- The `ValueError`s raised by `MipotSerial.transmit`. -/
inductive TxError where
  | tooShort
  | lengthMismatch
  | invalidCommand
  deriving DecidableEq, Repr

/-- `MipotSerial.transmit`: takes the command (opcode, length byte and
payload, without the 0xAA sync byte and without the checksum), validates it,
prepends 0xAA, appends the checksum and returns the wire bytes that are
written to the UART. -/
def transmit (command : List Nat) : Except TxError (List Nat) :=
  if command.length < 2 then .error .tooShort
  else if command.length ≠ command.getD 1 0 + 2 then .error .lengthMismatch
  else if command.getD 0 0 ∉ validCommands then .error .invalidCommand
  else
    let to_transmit := 0xAA :: command
    .ok (to_transmit ++ [mipotChecksum to_transmit.sum])

/-- The only exception `MipotSerial.receive` raises: `TimeoutError`. -/
inductive RxError where
  | timeout
  deriving DecidableEq, Repr

/-- Sync-byte loop of `MipotSerial.receive`: read bytes one at a time until
0xAA is seen; an exhausted stream is the deadline expiring. -/
def waitSync : List Nat → Except RxError (List Nat)
  | [] => .error .timeout
  | b :: rest => if b = 0xAA then .ok rest else waitSync rest

/-- Command-byte loop of `MipotSerial.receive`: skip superfluous 0xAA bytes
and return the first non-0xAA byte together with the remaining stream. -/
def readCmd : List Nat → Except RxError (Nat × List Nat)
  | [] => .error .timeout
  | b :: rest => if b = 0xAA then readCmd rest else .ok (b, rest)

/-- Acceptance test for a candidate command byte in `MipotSerial.receive`:
with an expected reply it must equal the expected code or be an indication;
without one it must be a valid command with the reply bit 0x80 set, or an
indication. -/
def cmdAccepted (expected : Option Nat) (b : Nat) : Bool :=
  match expected with
  | some e => b == e || validIndications.contains b
  | none =>
      (validCommands.contains (b &&& 0x7F) && (b &&& 0x80 == 0x80)) ||
        validIndications.contains b

/-- The read of the remaining bytes in `MipotSerial.receive`:
`bytes_to_read = length_byte + 1` (payload plus the trailing checksum byte);
a short read is a `TimeoutError`. Returns the bytes read and the rest of
the stream. -/
def readPayload (lengthByte : Nat) (s : List Nat) :
    Except RxError (List Nat × List Nat) :=
  let bytes_to_read := lengthByte + 1
  if s.length < bytes_to_read then .error .timeout
  else .ok (s.take bytes_to_read, s.drop bytes_to_read)

/-- Body of `MipotSerial.receive`. The fuel counts resynchronisation
iterations; every iteration that loops again has consumed at least two bytes
of the stream, and on an empty stream the next read times out, so
`stream.length` fuel (as supplied by `receive`) never runs out before the
loop itself would time out. -/
def receiveAux (expected : Option Nat) : Nat → List Nat →
    Except RxError (List Nat × Bool)
  | 0, _ => .error .timeout
  | fuel + 1, stream =>
    match waitSync stream with
    | .error e => .error e
    | .ok s1 =>
      match readCmd s1 with
      | .error e => .error e
      | .ok (cmd, s2) =>
        if cmdAccepted expected cmd then
          match s2 with
          | [] => .error .timeout
          | lengthByte :: s3 =>
            match readPayload lengthByte s3 with
            | .error e => .error e
            | .ok (further, rest) =>
              if (0xAA + cmd + lengthByte + further.sum) % 256 = 0 then
                .ok (cmd :: lengthByte :: further.dropLast,
                     validIndications.contains cmd)
              else receiveAux expected fuel rest
        else receiveAux expected fuel s2

/-- `MipotSerial.receive` as a function of the incoming byte stream: returns
the frame with the checksum stripped, and whether it is an indication. -/
def receive (stream : List Nat) (expected : Option Nat) :
    Except RxError (List Nat × Bool) :=
  receiveAux expected stream.length stream

/-- `MipotCmd.__init__`: `queue.Queue(32)`. -/
def queueCapacity : Nat := 32

/-- `self._indication_queue.put(data, block=False)` with the `queue.Full`
exception swallowed (`except queue.Full: pass` in `_get_reply`): a put on a
full queue is a silent no-op. The queue is a FIFO list, oldest entry first. -/
def queuePut (q : List (List Nat)) (d : List Nat) : List (List Nat) :=
  if q.length < queueCapacity then q ++ [d] else q

/-- One result of a call to `MipotSerial.receive` as seen by `_get_reply`:
either the `TimeoutError` it raised, or the pair it returned. -/
inductive RecvOutcome where
  | timeout
  | frame (data : List Nat) (isInd : Bool)
  deriving DecidableEq, Repr

/-- How a call to `_get_reply` ends exceptionally. -/
inductive ReplyError where
  | timeout      -- `TimeoutError` from a receive attempt, propagated
  | streamEnded  -- model artifact: no receive outcome was supplied
  deriving DecidableEq, Repr

/-- The `elif expected_len is None or data[1] == expected_len` test of
`_get_reply`, for a non-indication frame. -/
def replyAccepted (expectedLen : Option Nat) (d : List Nat) : Bool :=
  match expectedLen with
  | none => true
  | some n => d.getD 1 0 == n

/-- The retry loop of `MipotCmd._get_reply`, over the list of outcomes the
successive `receive` calls produce. Returns the result (the returned frame,
or the propagated exception), the indication queue after the call, and the
number of receive attempts actually performed. -/
def getReplyAux (expectedLen : Option Nat) :
    Nat → List RecvOutcome → List (List Nat) → List Nat →
    Except ReplyError (List Nat) × List (List Nat) × Nat
  | 0, _, q, last => (.ok last, q, 0)
  | _ + 1, [], q, _ => (.error .streamEnded, q, 0)
  | _ + 1, .timeout :: _, q, _ => (.error .timeout, q, 1)
  | retries + 1, .frame d true :: rest, q, _ =>
      let r := getReplyAux expectedLen retries rest (queuePut q d) d
      (r.1, r.2.1, r.2.2 + 1)
  | retries + 1, .frame d false :: rest, q, _ =>
      if replyAccepted expectedLen d then (.ok d, q, 1)
      else
        let r := getReplyAux expectedLen retries rest q d
        (r.1, r.2.1, r.2.2 + 1)

/-- `MipotCmd._get_reply`: `num_retries = 8`, initial `data` unbound (the
dummy `[]` is returned only if the retry budget were 0, which it is not). -/
def getReply (outcomes : List RecvOutcome) (expectedLen : Option Nat)
    (q : List (List Nat)) : Except ReplyError (List Nat) × List (List Nat) × Nat :=
  getReplyAux expectedLen 8 outcomes q []

/-- Control-line and UART actions, in the order they are performed. -/
inductive Action where
  | wake                        -- `MipotGpio.wakeup`
  | sleep                       -- `MipotGpio.sleep`
  | settle                      -- the 1 ms wait in `MipotSerial.transmit`
  | uartWrite (bytes : List Nat)
  | uartRead                    -- one `MipotSerial.receive` call
  deriving DecidableEq, Repr

/-- Action trace of `MipotSerial.transmit` once its validations passed:
wake, the 1 ms settle wait, then the UART write of the wire bytes. -/
def transmitTrace (wire : List Nat) : List Action :=
  [.wake, .settle, .uartWrite wire]

/-- How a `MipotCmd` command method ends exceptionally. -/
inductive CmdError where
  | invalidArg   -- `ValueError`, raised before any I/O
  | replyTimeout -- `TimeoutError` propagated out of `_get_reply`
  | streamEnded  -- model artifact: receive outcomes exhausted
  deriving DecidableEq, Repr

/-- `MipotCmd.join`, as the trace of control-line/UART actions together with
the outcome and the final indication queue. The `finally: self._gpio.sleep()`
of the source appends the sleep action on every exit path of the `try` block;
the mode check raises before the `try` block, so that path performs no
action at all. -/
def join (mode : Int) (outcomes : List RecvOutcome) (q : List (List Nat)) :
    List Action × Except CmdError Nat × List (List Nat) :=
  if mode < 0 ∨ mode > 1 then ([], .error .invalidArg, q)
  else
    match transmit [0x40, 0x01, mode.toNat] with
    | .error _ => ([.sleep], .error .invalidArg, q)
    | .ok wire =>
      let r := getReply outcomes (some 1) q
      let trace := transmitTrace wire ++ List.replicate r.2.2 .uartRead ++ [.sleep]
      match r.1 with
      | .error .timeout => (trace, .error .replyTimeout, r.2.1)
      | .error .streamEnded => (trace, .error .streamEnded, r.2.1)
      | .ok d => (trace, .ok (d.getD 2 0), r.2.1)

/-- How `MipotCmd.get_indication` ends exceptionally. -/
inductive IndError where
  | protocolViolation (opcode : Nat)  -- `RuntimeError`: unexpected command reply
  deriving DecidableEq, Repr

/-- `MipotCmd.get_indication`: pop the oldest queued indication if the queue
is non-empty (no I/O at all); otherwise wake the module and perform one
decode attempt with `expected_cmd_reply = None`, returning `none` when it
times out. The source contains no `sleep` call on any path of this method. -/
def get_indication (stream : List Nat) (q : List (List Nat)) :
    List Action × Except IndError (Option (List Nat)) × List (List Nat) :=
  match q with
  | d :: q' => ([], .ok (some d), q')
  | [] =>
    let trace := [Action.wake, Action.uartRead]
    match receive stream none with
    | .error .timeout => (trace, .ok none, [])
    | .ok (data, isInd) =>
      if isInd then (trace, .ok (some data), [])
      else (trace, .error (.protocolViolation (data.getD 0 0)), [])

/-- `MipotCmd.set_app_key`: the command bytes handed to `transmit`
(`b'\x43\x10' + app_key[::-1]`), after the length check. -/
def set_app_key_cmd (app_key : List Nat) : Except CmdError (List Nat) :=
  if app_key.length ≠ 16 then .error .invalidArg
  else .ok (0x43 :: 0x10 :: app_key.reverse)

/-- `MipotCmd.set_app_session_key`: `b'\x44\x10' + app_session_key[::-1]`. -/
def set_app_session_key_cmd (app_session_key : List Nat) :
    Except CmdError (List Nat) :=
  if app_session_key.length ≠ 16 then .error .invalidArg
  else .ok (0x44 :: 0x10 :: app_session_key.reverse)

/-- `MipotCmd.set_nwk_session_key`: the source reads
`b'\x45\x10' + network_session_key[::1]` — the slice `[::1]` (step 1, not
step -1) copies the key in its original order, without reversing it. -/
def set_nwk_session_key_cmd (network_session_key : List Nat) :
    Except CmdError (List Nat) :=
  if network_session_key.length ≠ 16 then .error .invalidArg
  else .ok (0x45 :: 0x10 :: network_session_key)

/-- `int.to_bytes(n, 'little', signed=False)`. -/
def toBytesLE : Nat → Nat → List Nat
  | 0, _ => []
  | n + 1, v => v % 256 :: toBytesLE n (v / 256)

/-- The `ValueError`s of `MipotCmd.set_ch_parameters`. -/
inductive ChError where
  | badChannel
  | minAboveMax
  | badMinDataRate
  | badMaxDataRate
  | freqTooLow
  | freqTooHigh
  deriving DecidableEq, Repr

/-- `MipotCmd.set_ch_parameters`: argument validation and construction of
the request bytes handed to `transmit`; every error is raised before any
I/O. Arguments are naturals (the wire carries unsigned bytes). The Python
`bandwidth / 2` is float division, but all three bandwidth values are even
and the frequencies involved are exactly representable, so natural division
gives the same comparisons; for the lower-bound test natural truncation at
zero also cannot change the outcome, since a frequency below `bandwidth / 2`
is far below the 863 MHz bound either way. -/
def set_ch_parameters_cmd (channel frequency min_data_rate max_data_rate : Nat)
    (enabled : Bool) : Except ChError (List Nat) :=
  if channel < 3 ∨ channel > 15 then .error .badChannel
  else if min_data_rate > max_data_rate then .error .minAboveMax
  else
    match (if min_data_rate < 6 then some 125000
           else if min_data_rate = 6 then some 250000
           else if min_data_rate = 7 then some 50000
           else none : Option Nat) with
    | none => .error .badMinDataRate
    | some bw =>
      if max_data_rate > 7 then .error .badMaxDataRate
      else
        let bandwidth := if max_data_rate = 6 ∧ bw < 250000 then 250000 else bw
        if frequency - bandwidth / 2 < 863000000 then .error .freqTooLow
        else if frequency + bandwidth / 2 > 869000000 then .error .freqTooHigh
        else
          let data_rate := min_data_rate ||| (max_data_rate <<< 4)
          let enabled_parm := if enabled then 1 else 0
          .ok ([0x57, 0x07, channel] ++ toBytesLE 4 frequency ++
               [data_rate, enabled_parm])

/-- The `ValueError`s of `MipotCmd.parse_rx_msg_indication`. -/
inductive ParseError where
  | tooSmall
  | notRxMsg
  | illegalMsgType
  | illegalDataRate
  | illegalSlot
  | illegalPort
  deriving DecidableEq, Repr

/-- The dictionary returned by `MipotCmd.parse_rx_msg_indication`. -/
structure RxMsg where
  success : Bool
  message_type : Nat
  multicast : Bool
  data_rate : Nat
  slot : Nat
  frame_pending : Bool
  ack : Bool
  rssi_dbm : Int
  snr_db : Nat
  port : Option Nat
  data : Option (List Nat)
  deriving DecidableEq, Repr

/-- `int.from_bytes(b, 'little', signed=True)` for a two-byte slice. -/
def int16FromBytesLE (lo hi : Nat) : Int :=
  let v := lo + 256 * hi
  if v < 32768 then (v : Int) else (v : Int) - 65536

/-- `MipotCmd.parse_rx_msg_indication`, with the field extractions and the
validation checks in source order. Note that `port` is read from byte 12
under the test `len(indication) > 12`, which is always true given the
initial `len(indication) < 13` check, and that `snr` is read from the same
byte 12. -/
def parse_rx_msg_indication (ind : List Nat) : Except ParseError RxMsg :=
  if ind.length < 13 then .error .tooSmall
  else if ind.getD 0 0 ≠ 0x49 then .error .notRxMsg
  else
    let msg_type := ind.getD 3 0
    let data_rate := ind.getD 5 0
    let rx_slot := ind.getD 6 0
    let snr := ind.getD 12 0
    let port : Option Nat := if ind.length > 12 then some (ind.getD 12 0) else none
    let data : Option (List Nat) :=
      if ind.length > 13 ∧ ind.getD 9 0 = 0x01 then some (ind.drop 13) else none
    if msg_type > 3 then .error .illegalMsgType
    else if data_rate > 7 then .error .illegalDataRate
    else if rx_slot > 2 then .error .illegalSlot
    else if (match port with | some p => decide (p < 1) || decide (p > 223) | none => false) then
      .error .illegalPort
    else
      .ok { success := ind.getD 2 0 == 0x00
            message_type := msg_type
            multicast := ind.getD 4 0 == 0x01
            data_rate := data_rate
            slot := rx_slot
            frame_pending := ind.getD 7 0 == 0x01
            ack := ind.getD 8 0 == 0x01
            rssi_dbm := int16FromBytesLE (ind.getD 10 0) (ind.getD 11 0)
            snr_db := snr
            port := port
            data := data }

/-- Modelled from the spec: the `ReadPayload` step as §4.2 words it — "read
exactly `length` bytes (this includes the trailing checksum byte)", with a
short read before the deadline a `Timeout`. To be compared with the source's
`readPayload`, which reads `length + 1` bytes. -/
def readPayloadSpec (lengthByte : Nat) (s : List Nat) :
    Except RxError (List Nat × List Nat) :=
  if s.length < lengthByte then .error .timeout
  else .ok (s.take lengthByte, s.drop lengthByte)

/-- A receive result that `_get_reply` does not accept and retries past: an
indication, or a command reply whose length byte disagrees with the expected
reply length. -/
def nonAccepting (expectedLen : Option Nat) (p : List Nat × Bool) : Bool :=
  p.2 || !replyAccepted expectedLen p.1

/-- Packages a `(data, is_indication)` pair as the outcome of a successful
`receive` call. -/
def mkOutcome (p : List Nat × Bool) : RecvOutcome := .frame p.1 p.2

/- ### Checksum arithmetic -/

theorem xor255_mod (s : Nat) : (s ^^^ 255) % 256 = s % 256 ^^^ 255 := by
  have h256 : (256 : Nat) = 2 ^ 8 := by norm_num
  have h255 : (255 : Nat) = 2 ^ 8 - 1 := by norm_num
  rw [h256, h255]
  apply Nat.eq_of_testBit_eq
  intro i
  rw [Nat.testBit_mod_two_pow, Nat.testBit_xor, Nat.testBit_xor,
    Nat.testBit_mod_two_pow, Nat.testBit_two_pow_sub_one]
  cases hd : decide (i < 8) <;> cases ht : s.testBit i <;> rfl

theorem byte_xor255 (r : Nat) (hr : r < 256) : r ^^^ 255 = 255 - r := by
  have h255 : (255 : Nat) = 2 ^ 8 - 1 := by norm_num
  have hsub : (255 : Nat) - r = 2 ^ 8 - (r + 1) := by omega
  have hr' : r < 2 ^ 8 := by omega
  rw [hsub, h255]
  apply Nat.eq_of_testBit_eq
  intro i
  rw [Nat.testBit_xor, Nat.testBit_two_pow_sub_one,
    Nat.testBit_two_pow_sub_succ hr']
  rcases lt_or_ge i 8 with hi | hi
  · simp [hi]
  · have ht : r.testBit i = false :=
      Nat.testBit_lt_two_pow
        (lt_of_lt_of_le hr' (Nat.pow_le_pow_right (by norm_num) hi))
    simp [Nat.not_lt.2 hi, ht]

/-- The checksum appended by `transmit` makes the byte sum vanish mod 256. -/
theorem sum_add_mipotChecksum (s : Nat) : (s + mipotChecksum s) % 256 = 0 := by
  unfold mipotChecksum
  have h1 := xor255_mod s
  have h2 : s % 256 ^^^ 255 = 255 - s % 256 :=
    byte_xor255 (s % 256) (Nat.mod_lt _ (by norm_num))
  omega

/- ### C8: checksum invariant of every encoded frame -/

/-- Claim C8: for every frame built by the encoder from a valid command and
payload, the sum of all transmitted bytes (sync byte, opcode, length byte,
payload and checksum) is congruent to 0 modulo 256. -/
theorem transmit_checksum_invariant (command wire : List Nat)
    (h : transmit command = .ok wire) : wire.sum % 256 = 0 := by
  unfold transmit at h
  split at h
  · exact absurd h (by simp)
  · split at h
    · exact absurd h (by simp)
    · split at h
      · exact absurd h (by simp)
      · simp only [Except.ok.injEq] at h
        subst h
        simp only [List.sum_append, List.sum_cons, List.sum_nil, Nat.add_zero]
        exact sum_add_mipotChecksum _

/-- Witness for C8 at the `join(0)` request frame. -/
theorem transmit_checksum_invariant_witness :
    ([0xAA, 0x40, 0x01, 0x00, 0x15] : List Nat).sum % 256 = 0 :=
  transmit_checksum_invariant [0x40, 0x01, 0x00] [0xAA, 0x40, 0x01, 0x00, 0x15] rfl

/- ### C2: wire layout of an encoded command -/

/-- Claim C2 counterexample: the encoder accepts the `join` request, whose length
byte (0x01) equals the payload length, not the payload length plus one; a
command whose length byte is the payload length plus one is rejected. -/
theorem transmit_length_byte_counterexample :
    transmit [0x40, 0x01, 0x00] = .ok [0xAA, 0x40, 0x01, 0x00, 0x15] ∧
    (0x01 : Nat) ≠ [(0x00 : Nat)].length + 1 ∧
    transmit [0x40, 0x02, 0x00] = .error .lengthMismatch :=
  ⟨rfl, by decide, rfl⟩

/-- Claim C2 (amended): for every accepted command, the wire bytes are
`SYNC(0xAA) ∥ opcode ∥ length ∥ payload ∥ checksum` with the length byte
equal to `len(payload)`: the payload occupies exactly `length` bytes of the
wire frame and the checksum is one further trailing byte not counted by the
length byte. -/
theorem transmit_wire_format (command wire : List Nat)
    (h : transmit command = .ok wire) :
    ∃ op L payload, command = op :: L :: payload ∧ L = payload.length ∧
      op ∈ validCommands ∧
      wire = 0xAA :: op :: L :: payload ++
        [mipotChecksum (0xAA + op + L + payload.sum)] := by
  match command with
  | [] => simp [transmit] at h
  | [op] => simp [transmit] at h
  | op :: L :: payload =>
    simp only [transmit, List.length_cons, List.getD_cons_succ,
      List.getD_cons_zero] at h
    rw [if_neg (by omega)] at h
    by_cases hL : payload.length + 1 + 1 ≠ L + 2
    · rw [if_pos hL] at h
      exact absurd h (by simp)
    · rw [if_neg hL] at h
      push_neg at hL
      by_cases hv : op ∈ validCommands
      · rw [if_neg (by simpa using hv)] at h
        simp only [Except.ok.injEq] at h
        refine ⟨op, L, payload, rfl, by omega, hv, ?_⟩
        rw [← h]
        have hsum : 0xAA + (op + (L + payload.sum)) = 0xAA + op + L + payload.sum := by
          ring
        simp only [List.cons_append, List.sum_cons, hsum]
      · rw [if_pos (by simpa using hv)] at h
        exact absurd h (by simp)

/-- Witness for C2 at the `join(0)` request frame. -/
theorem transmit_wire_format_witness :
    ∃ op L payload, ([0x40, 0x01, 0x00] : List Nat) = op :: L :: payload ∧
      L = payload.length ∧ op ∈ validCommands ∧
      ([0xAA, 0x40, 0x01, 0x00, 0x15] : List Nat) = 0xAA :: op :: L :: payload ++
        [mipotChecksum (0xAA + op + L + payload.sum)] :=
  transmit_wire_format [0x40, 0x01, 0x00] [0xAA, 0x40, 0x01, 0x00, 0x15] rfl

/- ### C3: the ReadPayload step of the decode state machine -/

/-- Claim C3 counterexample: after the header `0xAA 0xC0 0x01` a single further
byte 0x95 is available, which is exactly `length` bytes and makes the whole
frame sum vanish mod 256; the spec-modelled ReadPayload accepts it, but the
decoder times out, because the source reads `length + 1` further bytes. -/
theorem readPayload_count_counterexample :
    receive [0xAA, 0xC0, 0x01, 0x95] (some 0xC0) = .error .timeout ∧
    readPayloadSpec 0x01 [0x95] = .ok ([0x95], []) ∧
    readPayload 0x01 [0x95] = .error .timeout :=
  ⟨rfl, rfl, rfl⟩

/-- Claim C3 (amended): after the length byte is read, the ReadPayload step of the
decode state machine reads exactly `length + 1` further bytes (the extra
byte being the trailing checksum) under the remaining deadline budget, and
any short read before the deadline fails with Timeout. -/
theorem readPayload_step (L : Nat) (s : List Nat) :
    (L + 1 ≤ s.length →
      readPayload L s = .ok (s.take (L + 1), s.drop (L + 1)) ∧
      (s.take (L + 1)).length = L + 1) ∧
    (s.length < L + 1 → readPayload L s = .error .timeout) := by
  constructor
  · intro hle
    constructor
    · unfold readPayload
      rw [if_neg (by omega)]
    · simp [List.length_take]
      omega
  · intro hlt
    unfold readPayload
    rw [if_pos (by omega)]

/-- Witness for C3 with length byte 1 and two available bytes. -/
theorem readPayload_step_witness :
    readPayload 0x01 [0x95, 0x00] = .ok ([0x95, 0x00], []) :=
  ((readPayload_step 0x01 [0x95, 0x00]).1 (by decide)).1

/- ### C5: key length checks and byte reversal -/

/-- A 16-byte key that is not a palindrome. -/
def keyC5 : List Nat :=
  [0x00, 0x01, 0x02, 0x03, 0x04, 0x05, 0x06, 0x07,
   0x08, 0x09, 0x0A, 0x0B, 0x0C, 0x0D, 0x0E, 0x0F]

/-- Claim C5: all three key setters demand exactly 16 bytes, and the app key and
app session key are transmitted byte-reversed — but `set_nwk_session_key`
transmits the network session key in its original order (the source slices
with `[::1]` instead of `[::-1]`), contradicting the protocol layout its
two sibling functions implement. -/
theorem nwk_session_key_not_reversed :
    set_app_key_cmd keyC5 = .ok (0x43 :: 0x10 :: keyC5.reverse) ∧
    set_app_session_key_cmd keyC5 = .ok (0x44 :: 0x10 :: keyC5.reverse) ∧
    set_nwk_session_key_cmd keyC5 = .ok (0x45 :: 0x10 :: keyC5) ∧
    keyC5 ≠ keyC5.reverse ∧
    set_app_key_cmd (List.replicate 15 0) = .error .invalidArg ∧
    set_app_session_key_cmd (List.replicate 15 0) = .error .invalidArg ∧
    set_nwk_session_key_cmd (List.replicate 15 0) = .error .invalidArg :=
  ⟨rfl, rfl, rfl, by decide, rfl, rfl, rfl⟩

/- ### C6: set_ch_parameters validation and encoding -/

/-- Claim C6 counterexample: the accepted request for channel 3 at 868.1 MHz with
data rates 0–5 carries the packed data-rate byte 0x50
(`min_data_rate | (max_data_rate << 4)`), not 0x05. -/
theorem data_rate_byte_counterexample :
    set_ch_parameters_cmd 3 868100000 0 5 true =
      .ok [0x57, 0x07, 0x03, 0xA0, 0x27, 0xBE, 0x33, 0x50, 0x01] ∧
    (0x50 : Nat) ≠ 0x05 :=
  ⟨rfl, by decide⟩

/-- Claim C6 (amended): `set_ch_parameters` with channel 16 fails before any I/O
for every choice of the other arguments; channel 3 at 862 MHz with data
rates 0–5 fails because the frequency minus half the 125 kHz bandwidth lies
below the 863.0 MHz lower bound; channel 3 at 868.1 MHz with data rates 0–5
passes validation and encodes the packed data-rate byte of the request
(byte index 7) as 0x50 — minimum rate in the low nibble, maximum rate in
the high nibble. -/
theorem set_ch_parameters_validation :
    (∀ frequency mn mx en,
      set_ch_parameters_cmd 16 frequency mn mx en = .error .badChannel) ∧
    set_ch_parameters_cmd 3 862000000 0 5 true = .error .freqTooLow ∧
    set_ch_parameters_cmd 3 868100000 0 5 true =
      .ok [0x57, 0x07, 0x03, 0xA0, 0x27, 0xBE, 0x33, 0x50, 0x01] ∧
    [0x57, 0x07, 0x03, 0xA0, 0x27, 0xBE, 0x33, 0x50, 0x01].getD 7 0 = 0x50 := by
  refine ⟨?_, rfl, rfl, rfl⟩
  intro frequency mn mx en
  unfold set_ch_parameters_cmd
  rw [if_pos (by omega)]

/- ### C7: the indication queue is a bounded FIFO of capacity 32 -/

set_option maxRecDepth 4096 in
/-- Claim C7: putting on a queue holding 32 entries is a silent no-op that keeps
the existing entries (the `queue.Full` exception is swallowed in
`_get_reply`); putting on a shorter queue appends at the tail; enqueueing
33 distinct indications leaves exactly the first 32 in FIFO order; and
`get_indication` on a non-empty queue pops the oldest entry, with no I/O. -/
theorem indication_queue_fifo :
    (∀ q d, q.length = queueCapacity → queuePut q d = q) ∧
    (∀ q d, q.length < queueCapacity → queuePut q d = q ++ [d]) ∧
    (List.foldl queuePut [] ((List.range 33).map fun n => [n]) =
      (List.range 32).map fun n => [n]) ∧
    (∀ d q' stream, get_indication stream (d :: q') = ([], .ok (some d), q')) := by
  refine ⟨?_, ?_, by rfl, fun d q' stream => rfl⟩
  · intro q d hq
    unfold queuePut
    rw [if_neg (by omega)]
  · intro q d hq
    unfold queuePut
    rw [if_pos hq]

/-- Witness for C7: a full queue of 32 entries ignores a 33rd put; a queue
of one entry accepts a second at the tail. -/
theorem indication_queue_fifo_witness :
    queuePut ((List.range 32).map fun n => [n]) [99] =
      ((List.range 32).map fun n => [n]) ∧
    queuePut [[7]] [8] = [[7], [8]] :=
  ⟨indication_queue_fifo.1 _ [99] (by decide),
   indication_queue_fifo.2.1 [[7]] [8] (by decide)⟩

/- ### C9: encode/decode round trip -/

/-- No valid command opcode is the sync byte 0xAA. -/
theorem validCommands_ne_sync : ∀ x ∈ validCommands, x ≠ 0xAA := by decide

/-- No valid command opcode is an indication opcode. -/
theorem validCommands_not_indication :
    ∀ x ∈ validCommands, validIndications.contains x = false := by decide

/-- One clean iteration of the decode loop: a stream that starts with a
well-formed frame (sync byte, accepted command byte, length byte, and
exactly `length + 1` further bytes whose total sum vanishes mod 256)
decodes to that frame with the checksum stripped, whatever fuel remains. -/
theorem receiveAux_one_frame (expected : Option Nat) (n : Nat)
    (cmd lengthByte : Nat) (body : List Nat)
    (hne : cmd ≠ 0xAA)
    (hacc : cmdAccepted expected cmd = true)
    (hlen : body.length = lengthByte + 1)
    (hchk : (0xAA + cmd + lengthByte + body.sum) % 256 = 0) :
    receiveAux expected (n + 1) (0xAA :: cmd :: lengthByte :: body) =
      .ok (cmd :: lengthByte :: body.dropLast,
           validIndications.contains cmd) := by
  have h1 : waitSync (0xAA :: cmd :: lengthByte :: body) =
      .ok (cmd :: lengthByte :: body) := by
    rw [waitSync, if_pos rfl]
  have h2 : readCmd (cmd :: lengthByte :: body) =
      .ok (cmd, lengthByte :: body) := by
    rw [readCmd, if_neg hne]
  have h3 : readPayload lengthByte body = .ok (body, []) := by
    unfold readPayload
    rw [if_neg (by omega), ← hlen, List.take_length, List.drop_length]
  simp [receiveAux, h1, h2, hacc, h3, hchk]

/-- Claim C9: for every valid command opcode and every payload of length 0–254,
feeding the byte stream produced by the encoder into the decoder (with the
opcode as the expected reply code) recovers the frame
`opcode ∥ length ∥ payload` unchanged, classified as a non-indication. -/
theorem encode_decode_roundtrip (op : Nat) (payload : List Nat)
    (hop : op ∈ validCommands) (hlen : payload.length ≤ 254)
    (hbytes : ∀ b ∈ payload, b < 256) :
    ∃ wire, transmit (op :: payload.length :: payload) = .ok wire ∧
      receive wire (some op) = .ok (op :: payload.length :: payload, false) := by
  have hne : op ≠ 0xAA := validCommands_ne_sync op hop
  have hnind : validIndications.contains op = false :=
    validCommands_not_indication op hop
  have hsum : 0xAA + (op + (payload.length + payload.sum)) =
      0xAA + op + payload.length + payload.sum := by ring
  refine ⟨0xAA :: op :: payload.length :: payload ++
      [mipotChecksum (0xAA + op + payload.length + payload.sum)], ?_, ?_⟩
  · simp only [transmit, List.length_cons, List.getD_cons_succ,
      List.getD_cons_zero]
    rw [if_neg (by omega), if_neg (by omega), if_neg (by simpa using hop)]
    simp only [List.cons_append, List.sum_cons, Except.ok.injEq, hsum]
  · have hbody : (payload ++
        [mipotChecksum (0xAA + op + payload.length + payload.sum)]).length =
        payload.length + 1 := by
      simp
    have hwl : (0xAA :: op :: payload.length :: payload ++
        [mipotChecksum (0xAA + op + payload.length + payload.sum)]).length =
        payload.length + 3 + 1 := by
      simp only [List.cons_append, List.length_cons, hbody]
    have hacc : cmdAccepted (some op) op = true := by
      simp [cmdAccepted]
    have hchk : (0xAA + op + payload.length + (payload ++
        [mipotChecksum (0xAA + op + payload.length + payload.sum)]).sum) % 256
        = 0 := by
      simp only [List.sum_append, List.sum_cons, List.sum_nil, Nat.add_zero]
      have := sum_add_mipotChecksum (0xAA + op + payload.length + payload.sum)
      omega
    unfold receive
    rw [hwl]
    simp only [List.cons_append]
    rw [receiveAux_one_frame (some op) (payload.length + 3) op payload.length
      _ hne hacc hbody hchk]
    rw [List.dropLast_concat, hnind]

/-- Witness for C9: round trip of the `join(0)` request. -/
theorem encode_decode_roundtrip_witness :
    ∃ wire, transmit [0x40, 0x01, 0x00] = .ok wire ∧
      receive wire (some 0x40) = .ok ([0x40, 0x01, 0x00], false) :=
  encode_decode_roundtrip 0x40 [0x00] (by decide) (by decide) (by decide)


/- ### C1: the reply-wait retry policy -/

/-- The result of `_get_reply` depends only on the first `r` receive
outcomes when the retry budget is `r`. -/
theorem getReplyAux_take (expectedLen : Option Nat) :
    ∀ (r : Nat) (outcomes : List RecvOutcome) (q : List (List Nat))
      (last : List Nat),
      getReplyAux expectedLen r (outcomes.take r) q last =
        getReplyAux expectedLen r outcomes q last := by
  intro r
  induction r with
  | zero => intro outcomes q last; rfl
  | succ n ih =>
    intro outcomes q last
    cases outcomes with
    | nil => rfl
    | cons x rest =>
      cases x with
      | timeout => rfl
      | frame d i =>
        cases i with
        | false =>
          by_cases hacc : replyAccepted expectedLen d = true
          · simp [getReplyAux, hacc]
          · simp only [Bool.not_eq_true] at hacc
            simp [getReplyAux, hacc, ih]
        | true => simp [getReplyAux, ih]

/-- `_get_reply` performs at most as many receive attempts as its retry
budget. -/
theorem getReplyAux_attempts_le (expectedLen : Option Nat) :
    ∀ (r : Nat) (outcomes : List RecvOutcome) (q : List (List Nat))
      (last : List Nat),
      (getReplyAux expectedLen r outcomes q last).2.2 ≤ r := by
  intro r
  induction r with
  | zero => intro outcomes q last; exact Nat.le_refl 0
  | succ n ih =>
    intro outcomes q last
    cases outcomes with
    | nil => exact Nat.zero_le _
    | cons x rest =>
      cases x with
      | timeout => exact Nat.succ_le_succ (Nat.zero_le n)
      | frame d i =>
        cases i with
        | false =>
          by_cases hacc : replyAccepted expectedLen d = true
          · simp only [getReplyAux, hacc, if_true]
            exact Nat.succ_le_succ (Nat.zero_le n)
          · simp only [Bool.not_eq_true] at hacc
            simp only [getReplyAux, hacc, Bool.false_eq_true, if_false]
            exact Nat.succ_le_succ (ih rest q d)
        | true =>
          simp only [getReplyAux]
          exact Nat.succ_le_succ (ih rest (queuePut q d) d)

/-- If every one of the first `r` outcomes is a frame `_get_reply` does not
accept, the attempts are all consumed and the last frame is returned as-is. -/
theorem getReplyAux_exhaust (expectedLen : Option Nat) :
    ∀ (ps : List (List Nat × Bool)) (d : List Nat) (i : Bool)
      (q : List (List Nat)) (last : List Nat),
      (∀ p ∈ ps ++ [(d, i)], nonAccepting expectedLen p = true) →
      ∃ q', getReplyAux expectedLen (ps.length + 1)
          ((ps ++ [(d, i)]).map mkOutcome) q last =
        (.ok d, q', ps.length + 1) := by
  intro ps
  induction ps with
  | nil =>
    intro d i q last h
    cases i with
    | false =>
      have hd := h (d, false) (by simp)
      simp only [nonAccepting, Bool.or_eq_true, Bool.not_eq_true'] at hd
      rcases hd with hd | hd
      · simp at hd
      · exact ⟨q, by simp [getReplyAux, mkOutcome, hd]⟩
    | true =>
      exact ⟨queuePut q d, by simp [getReplyAux, mkOutcome]⟩
  | cons p ps ih =>
    intro d i q last h
    obtain ⟨dp, ip⟩ := p
    have hp := h (dp, ip) (by simp)
    have hrest : ∀ x ∈ ps ++ [(d, i)], nonAccepting expectedLen x = true := by
      intro x hx
      exact h x (by simp [hx])
    cases ip with
    | false =>
      simp only [nonAccepting, Bool.or_eq_true, Bool.not_eq_true'] at hp
      rcases hp with hp | hp
      · simp at hp
      · obtain ⟨q', hq'⟩ := ih d i q dp hrest
        refine ⟨q', ?_⟩
        simp only [List.cons_append, List.map_cons, List.length_cons]
        simp only [mkOutcome, getReplyAux, hp, Bool.false_eq_true, if_false]
        rw [hq']
    | true =>
      obtain ⟨q', hq'⟩ := ih d i (queuePut q dp) dp hrest
      refine ⟨q', ?_⟩
      simp only [List.cons_append, List.map_cons, List.length_cons]
      simp only [mkOutcome, getReplyAux]
      rw [hq']

/-- A `TimeoutError` raised by a receive attempt propagates immediately,
however many retries remain. -/
theorem getReplyAux_timeout (expectedLen : Option Nat) :
    ∀ (ps : List (List Nat × Bool)) (rest : List RecvOutcome) (r : Nat)
      (q : List (List Nat)) (last : List Nat),
      ps.length < r →
      (∀ p ∈ ps, nonAccepting expectedLen p = true) →
      (getReplyAux expectedLen r
        (ps.map mkOutcome ++ .timeout :: rest) q last).1 = .error .timeout := by
  intro ps
  induction ps with
  | nil =>
    intro rest r q last hr h
    cases r with
    | zero => omega
    | succ n => rfl
  | cons p ps ih =>
    intro rest r q last hr h
    obtain ⟨dp, ip⟩ := p
    have hp := h (dp, ip) (by simp)
    have hrest : ∀ x ∈ ps, nonAccepting expectedLen x = true := by
      intro x hx
      exact h x (by simp [hx])
    cases r with
    | zero => omega
    | succ n =>
      have hn : ps.length < n := by simpa using hr
      cases ip with
      | false =>
        simp only [nonAccepting, Bool.or_eq_true, Bool.not_eq_true'] at hp
        rcases hp with hp | hp
        · simp at hp
        · simp only [List.map_cons, List.cons_append]
          simp only [mkOutcome, getReplyAux, hp, Bool.false_eq_true, if_false]
          exact ih rest n q dp hn hrest
      | true =>
        simp only [List.map_cons, List.cons_append]
        simp only [mkOutcome, getReplyAux]
        exact ih rest n (queuePut q dp) dp hn hrest

/-- Claim C1: the reply-wait performs at most 8 receive attempts and its result
depends only on the first 8 outcomes; decoded indications and
length-mismatched replies are not accepted and cause another attempt, and
when all 8 attempts are consumed this way the 8th decoded frame is returned
as-is, without raising; a timeout raised by any single receive attempt
propagates immediately instead of being retried. -/
theorem getReply_retry_policy :
    (∀ outcomes expectedLen q,
      getReply (outcomes.take 8) expectedLen q = getReply outcomes expectedLen q) ∧
    (∀ outcomes expectedLen q, (getReply outcomes expectedLen q).2.2 ≤ 8) ∧
    (∀ (ps : List (List Nat × Bool)) (d : List Nat) (i : Bool) expectedLen q,
      ps.length = 7 →
      (∀ p ∈ ps ++ [(d, i)], nonAccepting expectedLen p = true) →
      ∃ q', getReply ((ps ++ [(d, i)]).map mkOutcome) expectedLen q =
        (.ok d, q', 8)) ∧
    (∀ (ps : List (List Nat × Bool)) (rest : List RecvOutcome) expectedLen q,
      ps.length < 8 →
      (∀ p ∈ ps, nonAccepting expectedLen p = true) →
      (getReply (ps.map mkOutcome ++ .timeout :: rest) expectedLen q).1 =
        .error .timeout) := by
  refine ⟨?_, ?_, ?_, ?_⟩
  · intro outcomes expectedLen q
    exact getReplyAux_take expectedLen 8 outcomes q []
  · intro outcomes expectedLen q
    exact getReplyAux_attempts_le expectedLen 8 outcomes q []
  · intro ps d i expectedLen q hlen h
    have := getReplyAux_exhaust expectedLen ps d i q [] h
    rw [hlen] at this
    exact this
  · intro ps rest expectedLen q hlen h
    exact getReplyAux_timeout expectedLen ps rest 8 q [] hlen h

/-- Witness for C1: seven length-mismatched replies followed by an
indication exhaust the retry budget, and the 8th frame (the indication) is
returned as-is. -/
theorem getReply_retry_policy_witness :
    ∃ q', getReply ((List.replicate 7 ([0x99, 5], false) ++
        [([0x41, 1, 0], true)]).map mkOutcome) (some 0) [] =
      (.ok [0x41, 1, 0], q', 8) :=
  getReply_retry_policy.2.2.1 (List.replicate 7 ([0x99, 5], false))
    [0x41, 1, 0] true (some 0) [] (by decide) (by decide)



/- ### C4: wake/sleep bracketing -/

/-- The trace of a `join` call with a valid mode: the transmit actions, one
UART read per receive attempt, then the sleep of the `finally` block —
whatever the receive outcomes were. -/
theorem join_trace_eq (mode : Int) (outcomes : List RecvOutcome)
    (q : List (List Nat)) (h0 : 0 ≤ mode) (h1 : mode ≤ 1) :
    ∃ wire, (join mode outcomes q).1 =
      transmitTrace wire ++
        List.replicate (getReply outcomes (some 1) q).2.2 Action.uartRead ++
        [Action.sleep] := by
  have hif : ¬(mode < 0 ∨ mode > 1) := by omega
  have hm : mode = 0 ∨ mode = 1 := by omega
  rcases hm with hm | hm <;> subst hm
  · refine ⟨[0xAA, 0x40, 0x01, 0x00, 0x15], ?_⟩
    unfold join
    rw [if_neg hif]
    have htx : transmit [0x40, 0x01, Int.toNat 0] =
        .ok [0xAA, 0x40, 0x01, 0x00, 0x15] := rfl
    rw [htx]
    rcases hres : (getReply outcomes (some 1) q).1 with e | d
    · rcases e <;> simp [hres]
    · simp [hres]
  · refine ⟨[0xAA, 0x40, 0x01, 0x01, 0x14], ?_⟩
    unfold join
    rw [if_neg hif]
    have htx : transmit [0x40, 0x01, Int.toNat 1] =
        .ok [0xAA, 0x40, 0x01, 0x01, 0x14] := rfl
    rw [htx]
    rcases hres : (getReply outcomes (some 1) q).1 with e | d
    · rcases e <;> simp [hres]
    · simp [hres]

/-- Claim C4 counterexample: `get_indication` on an empty queue with an
immediately-expiring stream performs its decode attempt bracketed by a wake
but by no sleep: the action trace is `[wake, uartRead]` and contains no
sleep action at all. -/
theorem get_indication_no_sleep_counterexample :
    (get_indication [] []).1 = [Action.wake, Action.uartRead] ∧
    Action.sleep ∉ (get_indication [] []).1 := by
  constructor
  · rfl
  · decide

/-- Claim C4 (amended): a command exchange (here `join`) wakes the module and
returns it to sleep on every exit path of its `try` block — success,
mismatch exhaustion, propagated timeout — while an argument-validation
failure raises before any I/O; but `get_indication` with an empty queue
wakes the module before its single decode attempt and does not return it to
sleep on any of its exit paths. -/
theorem wake_sleep_bracketing :
    (∀ (mode : Int) outcomes q, 0 ≤ mode → mode ≤ 1 →
      (join mode outcomes q).1.head? = some Action.wake ∧
      (join mode outcomes q).1.getLast? = some Action.sleep) ∧
    (∀ (mode : Int) outcomes q, mode < 0 ∨ mode > 1 →
      (join mode outcomes q).1 = []) ∧
    (∀ stream, (get_indication stream []).1.head? = some Action.wake ∧
      Action.sleep ∉ (get_indication stream []).1) := by
  refine ⟨?_, ?_, ?_⟩
  · intro mode outcomes q h0 h1
    obtain ⟨wire, hw⟩ := join_trace_eq mode outcomes q h0 h1
    rw [hw]
    constructor
    · rfl
    · rw [List.getLast?_concat]
  · intro mode outcomes q h
    unfold join
    rw [if_pos h]
  · intro stream
    have htr : (get_indication stream []).1 = [Action.wake, Action.uartRead] := by
      unfold get_indication
      rcases hres : receive stream none with e | p
      · rcases e
        rfl
      · obtain ⟨data, isInd⟩ := p
        cases isInd <;> rfl
    rw [htr]
    exact ⟨rfl, by decide⟩

/-- Witness for C4: a `join(0)` call whose receive outcomes are exhausted
still begins with the wake and ends with the sleep action. -/
theorem wake_sleep_bracketing_witness :
    (join 0 [] []).1.head? = some Action.wake ∧
    (join 0 [] []).1.getLast? = some Action.sleep :=
  wake_sleep_bracketing.1 0 [] [] (by decide) (by decide)



/- ### C10: port/snr aliasing in the rx-message decoder -/

/-- Claim C10: for every byte sequence meeting the rx-message preconditions
(length at least 13), a successful decode always carries a present `port`
equal to the `snr_db` field, both read from byte index 12; and whenever
byte 12 lies outside 1–223 the decode never succeeds — raising the
out-of-range-port error once the earlier field validations (opcode,
message type, data rate, slot) pass, including for frames of exactly 13
bytes where byte 12 carries the signal-to-noise value. -/
theorem parse_rx_msg_port_snr (ind : List Nat) (hlen : 13 ≤ ind.length) :
    (∀ r, parse_rx_msg_indication ind = .ok r →
      r.port = some (ind.getD 12 0) ∧ r.snr_db = ind.getD 12 0 ∧
      r.port = some r.snr_db) ∧
    ((ind.getD 12 0 < 1 ∨ 223 < ind.getD 12 0) →
      (∀ r, parse_rx_msg_indication ind ≠ .ok r) ∧
      (ind.getD 0 0 = 0x49 → ind.getD 3 0 ≤ 3 → ind.getD 5 0 ≤ 7 →
        ind.getD 6 0 ≤ 2 →
        parse_rx_msg_indication ind = .error .illegalPort)) := by
  have h12 : ind.length > 12 := by omega
  have hport : (if ind.length > 12 then some (ind.getD 12 0) else none) =
      some (ind.getD 12 0) := if_pos h12
  constructor
  · intro r h
    unfold parse_rx_msg_indication at h
    rw [if_neg (by omega), hport] at h
    dsimp only at h
    by_cases hopc : ind.getD 0 0 ≠ 0x49
    · rw [if_pos hopc] at h
      exact absurd h (by simp)
    · rw [if_neg hopc] at h
      by_cases hm : ind.getD 3 0 > 3
      · rw [if_pos hm] at h
        exact absurd h (by simp)
      · rw [if_neg hm] at h
        by_cases hd : ind.getD 5 0 > 7
        · rw [if_pos hd] at h
          exact absurd h (by simp)
        · rw [if_neg hd] at h
          by_cases hs : ind.getD 6 0 > 2
          · rw [if_pos hs] at h
            exact absurd h (by simp)
          · rw [if_neg hs] at h
            by_cases hc : (decide (ind.getD 12 0 < 1) ||
                decide (ind.getD 12 0 > 223)) = true
            · rw [if_pos hc] at h
              exact absurd h (by simp)
            · rw [if_neg hc] at h
              simp only [Except.ok.injEq] at h
              subst h
              exact ⟨rfl, rfl, rfl⟩
  · intro hout
    have hbad : (decide (ind.getD 12 0 < 1) || decide (ind.getD 12 0 > 223))
        = true := by
      cases hout with
      | inl h => rw [decide_eq_true h, Bool.true_or]
      | inr h => rw [decide_eq_true h, Bool.or_true]
    constructor
    · intro r h
      unfold parse_rx_msg_indication at h
      rw [if_neg (by omega), hport] at h
      dsimp only at h
      by_cases hopc : ind.getD 0 0 ≠ 0x49
      · rw [if_pos hopc] at h
        exact absurd h (by simp)
      · rw [if_neg hopc] at h
        by_cases hm : ind.getD 3 0 > 3
        · rw [if_pos hm] at h
          exact absurd h (by simp)
        · rw [if_neg hm] at h
          by_cases hd : ind.getD 5 0 > 7
          · rw [if_pos hd] at h
            exact absurd h (by simp)
          · rw [if_neg hd] at h
            by_cases hs : ind.getD 6 0 > 2
            · rw [if_pos hs] at h
              exact absurd h (by simp)
            · rw [if_neg hs] at h
              rw [if_pos hbad] at h
              exact absurd h (by simp)
    · intro hopc hmsg hdr hslot
      unfold parse_rx_msg_indication
      rw [if_neg (by omega), hport]
      dsimp only
      rw [if_neg (by omega), if_neg (by omega), if_neg (by omega),
        if_neg (by omega), if_pos hbad]

/-- Witness for C10: a minimal 13-byte rx-message frame whose byte 12 is 0
fails with the out-of-range-port error. -/
theorem parse_rx_msg_port_snr_witness :
    parse_rx_msg_indication [0x49, 11, 0, 0, 0, 0, 1, 0, 0, 0, 0, 0, 0] =
      .error .illegalPort :=
  ((parse_rx_msg_port_snr [0x49, 11, 0, 0, 0, 0, 1, 0, 0, 0, 0, 0, 0]
      (by decide)).2 (by decide)).2 (by decide) (by decide) (by decide)
    (by decide)


end Lora4Click
